import Mathlib

set_option maxHeartbeats 1000000

/- Shallow embedding of the BioPREP repository: `src/berts.py`
   (class `BERT_for_classification`) and `src/utility/simple_data_loader.py`.
   Real-valued quantities of the Python code (losses, F1 scores, logits) are
   modelled as `ℚ`; machine tensors are modelled as lists. -/

/-- Embedding of Python's `str.lower()` as ASCII case folding over the
    characters of the string; this covers every label-type string the loader
    compares against. -/
def pyLower (s : String) : String := ⟨s.data.map Char.toLower⟩

/-- One row of the pandas DataFrame read by the data loaders, restricted to
    the three columns `src/utility/simple_data_loader.py` uses: `text`,
    `predicate_answer` and `framenet_answer`. -/
structure DataRow where
  text : String
  predicate_answer : String
  framenet_answer : String
  deriving DecidableEq

/-- Embedding of sklearn `LabelEncoder.fit_transform` as used by
    `load_bert_data` (src/utility/simple_data_loader.py lines 45-55): the
    classes are the distinct labels in sorted order, and each label is encoded
    as the index of its class. -/
def labelEncode (labels : List String) : List ℕ :=
  let classes := labels.dedup.mergeSort (fun a b => decide (a ≤ b))
  labels.map (fun l => classes.indexOf l)

/-- Embedding of `load_bert_data` (src/utility/simple_data_loader.py lines
    37-58): select the answer column by `label_type.lower()`, returning
    `(X, y, num_classes)` with `X = df.text`, `y` the label-encoded column and
    `num_classes = column.nunique()`; any other label type raises. -/
def load_bert_data (rows : List DataRow) (label_type : String) :
    Except String (List String × List ℕ × ℕ) :=
  let X := rows.map DataRow.text
  if pyLower label_type = "predicate" then
    Except.ok (X, labelEncode (rows.map DataRow.predicate_answer),
      (rows.map DataRow.predicate_answer).dedup.length)
  else if pyLower label_type = "framenet" then
    Except.ok (X, labelEncode (rows.map DataRow.framenet_answer),
      (rows.map DataRow.framenet_answer).dedup.length)
  else
    Except.error "Argument LABEL_TYPE should be selected between predicate and framenet."

/-- Embedding of `load_csv_dataset` (src/utility/simple_data_loader.py lines
    15-35): pair each row's text with the answer column selected by
    `label_type.lower()`; any other label type raises. -/
def load_csv_dataset (rows : List DataRow) (label_type : String) :
    Except String (List (String × String)) :=
  if pyLower label_type = "predicate" then
    Except.ok (rows.map (fun r => (r.text, r.predicate_answer)))
  else if pyLower label_type = "framenet" then
    Except.ok (rows.map (fun r => (r.text, r.framenet_answer)))
  else
    Except.error "Argument LABEL_TYPE should be selected between predicate and framenet."

/-- Batch count used for the scheduler in `fit` (src/berts.py line 49):
    `batches = len(X_train) // self.batch_size + 1`. -/
def schedulerBatches (numTrainExamples batch_size : ℕ) : ℕ :=
  numTrainExamples / batch_size + 1

/-- Total scheduler steps in `fit` (src/berts.py line 50):
    `total_steps = batches * self.epochs`, passed as `num_training_steps` to
    `get_linear_schedule_with_warmup` (line 55). -/
def totalSchedulerSteps (numTrainExamples batch_size epochs : ℕ) : ℕ :=
  schedulerBatches numTrainExamples batch_size * epochs

/-- Events of the epoch loop of `fit` (src/berts.py lines 74-79). -/
inductive FitEvent where
  | train (epoch : ℕ)
  | evaluate (epoch : ℕ)
  deriving DecidableEq

/-- Trace of the epoch loop of `fit` (src/berts.py lines 74-79): for each
    `epoch_i in range(1, self.epochs+1)` run `self.train(...)`, then run
    `self.eval(...)` exactly when `epoch_i % eval_interval == 0`. There is no
    early exit in the loop body. Faithful to Python only for
    `eval_interval ≥ 1` (Python raises ZeroDivisionError on `% 0`). -/
def fitTrace (epochs eval_interval : ℕ) : List FitEvent :=
  (List.range' 1 epochs).flatMap (fun i =>
    [FitEvent.train i] ++ (if i % eval_interval = 0 then [FitEvent.evaluate i] else []))

/-- Recognizer for training events of a fit trace. -/
def isTrainEvent : FitEvent → Bool
  | .train _ => true
  | .evaluate _ => false

/-- Recognizer for evaluation events of a fit trace. -/
def isEvalEvent : FitEvent → Bool
  | .train _ => false
  | .evaluate _ => true

/-- Checkpoint decision inside `eval` (src/berts.py lines 289-303): when
    `f1 > best_score`, rebind the callee-local `best_score` to `f1` and save a
    checkpoint file with `torch.save`; otherwise save nothing. Returns the
    callee-local `best_score` after the conditional and whether a checkpoint
    file was written. -/
def evalBestScoreUpdate (f1 best_score : ℚ) : ℚ × Bool :=
  if f1 > best_score then (f1, true) else (best_score, false)

/-- Per-evaluation view of one `fit` call (src/berts.py lines 67, 74-79):
    `fit` initializes its local `best_score = 0` (line 67) and passes it to
    `self.eval(..., best_score)` on every evaluation (line 79). The value is a
    Python number passed by value; `eval` only rebinds its own parameter
    (line 290) and line 79 performs no assignment, so the variable held by
    `fit` is unchanged by each call. For every evaluation, in order, this
    records the pair (value of `fit`'s `best_score` right after the call,
    whether that evaluation wrote a checkpoint file), given the weighted-F1
    values `f1s` of the successive evaluations. -/
def fitEvalSequence (f1s : List ℚ) : List (ℚ × Bool) :=
  (f1s.foldl
    (fun (st : ℚ × List (ℚ × Bool)) f1 =>
      (st.1, st.2 ++ [(st.1, (evalBestScoreUpdate f1 st.1).2)]))
    (0, [])).2

/-- Values taken by `fit`'s `best_score` variable: its initial value 0
    followed by its value after each evaluation call of the fit call. -/
def fitTrackerValues (f1s : List ℚ) : List ℚ :=
  0 :: (fitEvalSequence f1s).map Prod.fst

/-- Semantics of numpy `np.concatenate` on a Python list of arrays:
    concatenating zero arrays raises
    `ValueError: need at least one array to concatenate`; otherwise the arrays
    are joined in order. -/
def npConcatenate (arrays : List (List α)) : Except String (List α) :=
  if arrays.isEmpty then Except.error "ValueError: need at least one array to concatenate"
  else Except.ok arrays.flatten

/-- Semantics of numpy `np.argmax` on one row (src/berts.py lines 272 and
    379): the index of the first occurrence of the maximum value, so ties are
    broken by the lowest index. Numpy raises on an empty row; that case is
    mapped to 0 here and is unreachable for the nonempty logit rows produced
    by a classifier with at least one class. -/
def npArgmax (v : List ℚ) : ℕ :=
  match v.maximum with
  | none => 0
  | some m => v.findIdx (fun a => a == m)

/-- One evaluation batch as consumed by the batch loop of `eval`
    (src/berts.py lines 223-259): the scalar batch loss `loss.item()`, the
    per-example logit rows of the forward pass, and the per-example labels. -/
structure EvalBatch where
  loss : ℚ
  logits : List (List ℚ)
  labels : List ℕ
  deriving DecidableEq

/-- Aggregated outcome of one `eval` call (src/berts.py lines 262-273):
    average validation loss, concatenated logit rows, concatenated labels and
    the row-wise argmax predictions. -/
structure EvalResult where
  avg_val_loss : ℚ
  predictions : List (List ℚ)
  true_labels : List ℕ
  derived_preds : List ℕ
  deriving DecidableEq

/-- Batch loop of `eval` (src/berts.py lines 203 and 223-259): starting from
    the empty Python lists `predictions, true_labels = [], []`, append each
    batch's logits and labels in batch order. -/
def evalLoopCollect (batches : List EvalBatch) :
    List (List (List ℚ)) × List (List ℕ) :=
  batches.foldl (fun acc b => (acc.1 ++ [b.logits], acc.2 ++ [b.labels])) ([], [])

/-- Validation-loss accumulation of the `eval` batch loop (src/berts.py lines
    220 and 251): `total_val_loss += loss.item()` for every batch. -/
def evalTotalValLoss (batches : List EvalBatch) : ℚ :=
  batches.foldl (fun acc b => acc + b.loss) 0

/-- Aggregation phase of `eval` (src/berts.py lines 261-273): divide the
    accumulated loss by `len(py_inputs)` (line 262, ZeroDivisionError when
    there are no batches), concatenate predictions and labels across batches
    with `np.concatenate` (lines 266-267), and derive the predictions by
    row-wise `np.argmax` (line 272). -/
def evalRun (batches : List EvalBatch) : Except String EvalResult :=
  if batches.length = 0 then Except.error "ZeroDivisionError: division by zero"
  else
    match npConcatenate (evalLoopCollect batches).1,
          npConcatenate (evalLoopCollect batches).2 with
    | Except.ok predictions, Except.ok true_labels =>
        Except.ok ⟨evalTotalValLoss batches / (batches.length : ℚ),
          predictions, true_labels, predictions.map npArgmax⟩
    | Except.error e, _ => Except.error e
    | _, Except.error e => Except.error e

/-- Training-loss accumulation of one epoch of `train`
    (src/berts.py lines 119 and 155): `total_train_loss += loss.item()` for
    every batch of the epoch. -/
def totalTrainLoss (batchLosses : List ℚ) : ℚ :=
  batchLosses.foldl (fun acc l => acc + l) 0

/-- Average training loss of one epoch (src/berts.py line 172):
    `avg_train_loss = total_train_loss / len(py_inputs)`; Python raises
    ZeroDivisionError when the epoch has no batches. -/
def avgTrainLoss (batchLosses : List ℚ) : Except String ℚ :=
  if batchLosses.length = 0 then Except.error "ZeroDivisionError: division by zero"
  else Except.ok (totalTrainLoss batchLosses / (batchLosses.length : ℚ))

/-- Modelled from the spec: `make_smart_batches` (utility/smart_batch.py is
    not part of src/). Per spec section 6 the Batch Source yields an ordered
    sequence of batches that together cover the given texts, grouped by
    `batch_size`; in particular an empty text sequence yields no batches. -/
def makeSmartBatches (batch_size : ℕ) (texts : List String) : List (List String) :=
  match texts with
  | [] => []
  | t :: ts =>
      (t :: ts.take (batch_size - 1)) :: makeSmartBatches batch_size (ts.drop (batch_size - 1))
  termination_by texts.length
  decreasing_by simp; omega

/-- Output of a successful `pred` call (src/berts.py lines 376-391): the
    concatenated logit rows, the argmax predictions, and the rows
    `(text, prediction)` of the CSV written to
    `./prediction/{model_type}_{yymmdd}.csv`. -/
structure PredOutput where
  predictions : List (List ℚ)
  derived_preds : List ℕ
  csv_rows : List (String × ℕ)
  deriving DecidableEq

/-- Embedding of `pred` (src/berts.py lines 312-391): batch the texts with the
    Batch Source, collect the per-batch logit rows (the model forward pass is
    embedded as a function from text to logit row), combine them with
    `np.concatenate` (line 376, which raises when the batch list is empty),
    derive predictions by row-wise argmax (line 379), and only then write the
    output CSV of `(text, prediction)` rows (lines 380-388). An `.error`
    result therefore means the CSV file was never created. -/
def predRun (modelLogits : String → List ℚ) (texts : List String)
    (batch_size : ℕ) : Except String PredOutput :=
  let batches := makeSmartBatches batch_size texts
  match npConcatenate (batches.map (fun b => b.map modelLogits)) with
  | Except.error e => Except.error e
  | Except.ok predictions =>
      let preds := predictions.map npArgmax
      Except.ok ⟨predictions, preds, texts.zip preds⟩

/-- Attributes of the classifier object consumed by the final report of `fit`
    (src/berts.py line 84): `self.true_labels` and `self.preds` exist only
    after `eval` has assigned them (lines 268 and 273), hence the `Option`. -/
structure ClfAttrs where
  true_labels : Option (List ℕ)
  preds : Option (List ℕ)
  deriving DecidableEq

/-- Epoch loop of `fit` restricted to its effect on `self.true_labels` and
    `self.preds` (src/berts.py lines 74-79): evaluation runs exactly when
    `epoch_i % eval_interval == 0` and assigns both attributes (lines 268 and
    273); `evalOut` gives the labels and argmax predictions the evaluation at
    a given epoch would produce. Faithful to Python only for
    `eval_interval ≥ 1`. -/
def fitLoopAttrs (epochs eval_interval : ℕ)
    (evalOut : ℕ → List ℕ × List ℕ) : ClfAttrs :=
  (List.range' 1 epochs).foldl
    (fun st i =>
      if i % eval_interval = 0 then ⟨some (evalOut i).1, some (evalOut i).2⟩ else st)
    ⟨none, none⟩

/-- Final report of `fit` (src/berts.py lines 84-88):
    `classification_report(self.true_labels, self.preds, ...)` raises
    `AttributeError` when the attributes were never assigned; the report CSV
    is written only afterwards (line 88), so on error no report CSV is
    produced. The result is `.ok true` exactly when the report CSV is
    written. -/
def fitReportOutcome (attrs : ClfAttrs) : Except String Bool :=
  match attrs.true_labels, attrs.preds with
  | some _, some _ => Except.ok true
  | _, _ => Except.error "AttributeError"

/-- Tail of a `fit` call after the training loop (src/berts.py lines 74-88):
    run the epoch loop, then generate the final classification report. -/
def fitRunReport (epochs eval_interval : ℕ)
    (evalOut : ℕ → List ℕ × List ℕ) : Except String Bool :=
  fitReportOutcome (fitLoopAttrs epochs eval_interval evalOut)

/- Helper lemmas shared across the claim theorems. -/

/-- Unfolding of the `fitEvalSequence` fold: the accumulated best-score
    component never changes, so every recorded evaluation compares its F1
    against the same value. -/
theorem fitEvalSequence_foldl_eq (l : List ℚ) :
    ∀ (b : ℚ) (acc : List (ℚ × Bool)),
      l.foldl
        (fun (st : ℚ × List (ℚ × Bool)) f1 =>
          (st.1, st.2 ++ [(st.1, (evalBestScoreUpdate f1 st.1).2)]))
        (b, acc)
      = (b, acc ++ l.map (fun f1 => (b, (evalBestScoreUpdate f1 b).2))) := by
  induction l with
  | nil => intro b acc; simp
  | cons x t ih => intro b acc; simp [List.foldl_cons, ih]

/-- Closed form of `fitEvalSequence`: every evaluation of one fit call
    receives `best_score = 0`. -/
theorem fitEvalSequence_eq (f1s : List ℚ) :
    fitEvalSequence f1s = f1s.map (fun f1 => (0, (evalBestScoreUpdate f1 0).2)) := by
  simp [fitEvalSequence, fitEvalSequence_foldl_eq]

/-- Closed form of `fitTrackerValues`: the tracker held by `fit` stays 0. -/
theorem fitTrackerValues_eq (f1s : List ℚ) :
    fitTrackerValues f1s = List.replicate (f1s.length + 1) 0 := by
  rw [fitTrackerValues, fitEvalSequence_eq, List.map_map, List.replicate_succ]
  refine congrArg (List.cons 0) ?_
  induction f1s with
  | nil => rfl
  | cons x t ih =>
      simp only [List.map_cons, List.length_cons, List.replicate_succ, Function.comp_apply]
      exact congrArg (List.cons 0) ih

/-- Length of the tracker-value sequence of one fit call. -/
theorem fitTrackerValues_length (f1s : List ℚ) :
    (fitTrackerValues f1s).length = f1s.length + 1 := by
  simp [fitTrackerValues_eq]

/-- Accumulating with `+` over a fold equals adding the sum of the mapped
    values, as in the Python `total += loss.item()` loops. -/
theorem foldl_add_map_eq {α : Type} (f : α → ℚ) (l : List α) :
    ∀ a : ℚ, l.foldl (fun acc x => acc + f x) a = a + (l.map f).sum := by
  induction l with
  | nil => intro a; simp
  | cons x t ih => intro a; simp [List.foldl_cons, ih, add_assoc]

/-- The eval batch loop collects exactly the per-batch logits and labels in
    batch order. -/
theorem evalLoopCollect_eq (batches : List EvalBatch) :
    evalLoopCollect batches
      = (batches.map EvalBatch.logits, batches.map EvalBatch.labels) := by
  have h : ∀ (l : List EvalBatch) (acc : List (List (List ℚ)) × List (List ℕ)),
      l.foldl (fun acc b => (acc.1 ++ [b.logits], acc.2 ++ [b.labels])) acc
        = (acc.1 ++ l.map EvalBatch.logits, acc.2 ++ l.map EvalBatch.labels) := by
    intro l
    induction l with
    | nil => intro acc; simp
    | cons b t ih => intro acc; simp [List.foldl_cons, ih]
  simpa using h batches ([], [])

/-- The accumulated validation loss is the sum of the per-batch losses. -/
theorem evalTotalValLoss_eq (batches : List EvalBatch) :
    evalTotalValLoss batches = (batches.map EvalBatch.loss).sum := by
  simpa using foldl_add_map_eq EvalBatch.loss batches 0

/-- The accumulated training loss is the sum of the per-batch losses. -/
theorem totalTrainLoss_eq (batchLosses : List ℚ) :
    totalTrainLoss batchLosses = batchLosses.sum := by
  simpa using foldl_add_map_eq id batchLosses 0

/-- On a nonempty batch list, `eval` succeeds and returns the aggregation of
    the per-batch outputs. -/
theorem evalRun_ok (batches : List EvalBatch) (h : batches ≠ []) :
    evalRun batches
      = Except.ok ⟨(batches.map EvalBatch.loss).sum / (batches.length : ℚ),
          (batches.map EvalBatch.logits).flatten,
          (batches.map EvalBatch.labels).flatten,
          ((batches.map EvalBatch.logits).flatten).map npArgmax⟩ := by
  have hlen : batches.length ≠ 0 := by
    simpa [List.length_eq_zero] using h
  have h1 : (batches.map EvalBatch.logits).isEmpty = false := by
    cases batches with
    | nil => exact absurd rfl h
    | cons b t => rfl
  have h2 : (batches.map EvalBatch.labels).isEmpty = false := by
    cases batches with
    | nil => exact absurd rfl h
    | cons b t => rfl
  simp [evalRun, hlen, evalLoopCollect_eq, npConcatenate, h1, h2, evalTotalValLoss_eq]

/-- Specification of `npArgmax` on a nonempty row: the result is a valid
    index, it attains the maximum, and among maximizing indices it is the
    lowest one. -/
theorem npArgmax_spec (v : List ℚ) (hv : v ≠ []) :
    ∃ hm : npArgmax v < v.length,
      (∀ j (hj : j < v.length), v.get ⟨j, hj⟩ ≤ v.get ⟨npArgmax v, hm⟩) ∧
      (∀ j (hj : j < v.length),
        v.get ⟨j, hj⟩ = v.get ⟨npArgmax v, hm⟩ → npArgmax v ≤ j) := by
  obtain ⟨m, hmax⟩ : ∃ m, v.maximum = some m := by
    have hb := List.maximum_ne_bot_of_ne_nil hv
    cases hmv : v.maximum with
    | bot => exact absurd hmv hb
    | coe m => exact ⟨m, rfl⟩
  have hidx : npArgmax v = v.findIdx (fun a => a == m) := by
    simp [npArgmax, hmax]
  have hmem : m ∈ v := List.maximum_mem hmax
  have hlt : v.findIdx (fun a => a == m) < v.length :=
    List.findIdx_lt_length_of_exists ⟨m, hmem, by simp⟩
  have hm : npArgmax v < v.length := by rw [hidx]; exact hlt
  have hval : v.get ⟨npArgmax v, hm⟩ = m := by
    have := @List.findIdx_getElem _ (fun a => a == m) v hlt
    simpa [List.get_eq_getElem, hidx] using this
  refine ⟨hm, ?_, ?_⟩
  · intro j hj
    rw [hval]
    exact List.le_maximum_of_mem (v.get_mem j hj) hmax
  · intro j hj hje
    by_contra hcon
    push_neg at hcon
    have hjlt : j < v.findIdx (fun a => a == m) := hidx ▸ hcon
    have hfalse := List.not_of_lt_findIdx hjlt
    have hgm : v.get ⟨j, hj⟩ = m := by rw [hje, hval]
    rw [List.get_eq_getElem] at hgm
    simp [hgm] at hfalse

/-- Filtering distributes over `flatMap`. -/
theorem filter_flatMap_comm {α β : Type} (l : List α) (f : α → List β)
    (p : β → Bool) :
    (l.flatMap f).filter p = l.flatMap (fun a => (f a).filter p) := by
  induction l with
  | nil => rfl
  | cons x t ih => simp [List.flatMap_cons, List.filter_append, ih]

/-- A `flatMap` of conditional singletons is the mapped filter. -/
theorem flatMap_ite_singleton {β : Type} (l : List ℕ) (p : ℕ → Prop)
    [DecidablePred p] (g : ℕ → β) :
    l.flatMap (fun i => if p i then [g i] else [])
      = (l.filter (fun i => decide (p i))).map g := by
  induction l with
  | nil => rfl
  | cons x t ih =>
      by_cases h : p x <;> simp [List.flatMap_cons, List.filter_cons, h, ih]

/-- A `flatMap` of singletons is a map. -/
theorem flatMap_singleton_map {α β : Type} (l : List α) (g : α → β) :
    l.flatMap (fun a => [g a]) = l.map g := by
  induction l with
  | nil => rfl
  | cons x t ih => simp [List.flatMap_cons, ih]

/-- A fold whose step leaves the state unchanged on every list element is the
    identity. -/
theorem foldl_congr_id {α β : Type} (step : β → α → β) (l : List α)
    (h : ∀ s, ∀ a ∈ l, step s a = s) : ∀ s : β, l.foldl step s = s := by
  induction l with
  | nil => intro s; rfl
  | cons x t ih =>
      intro s
      rw [List.foldl_cons, h s x (by simp)]
      exact ih (fun s a ha => h s a (by simp [ha])) s

/- Claim theorems. -/

/-- C3: in `fit`, the total number of scheduler steps equals
    `(len(X_train) // batch_size + 1) * epochs`; the `+ 1` adds one extra
    batch per epoch unconditionally, so even when the batch size divides the
    dataset size evenly the step count strictly exceeds the exact
    `(len(X_train) / batch_size) * epochs`; in particular for 100 training
    examples, batch size 16 and 3 epochs the total is 21. The hypothesis
    `0 < batch_size` mirrors Python, where `len(X_train) // 0` raises. -/
theorem scheduler_total_steps_formula (n b e : ℕ) (_hb : 0 < b) :
    totalSchedulerSteps n b e = (n / b + 1) * e ∧
    (b ∣ n → 0 < e → (n / b) * e < totalSchedulerSteps n b e) ∧
    totalSchedulerSteps 100 16 3 = 21 := by
  refine ⟨rfl, ?_, by decide⟩
  intro _ he
  simp only [totalSchedulerSteps, schedulerBatches, Nat.add_mul, Nat.one_mul]
  omega

/-- Witness for C3 at a concrete input where the batch size divides the
    dataset size evenly. -/
theorem scheduler_total_steps_formula_witness :
    totalSchedulerSteps 32 16 2 = (32 / 16 + 1) * 2 ∧
    (32 / 16) * 2 < totalSchedulerSteps 32 16 2 ∧
    totalSchedulerSteps 100 16 3 = 21 :=
  ⟨(scheduler_total_steps_formula 32 16 2 (by decide)).1,
   (scheduler_total_steps_formula 32 16 2 (by decide)).2.1 (by decide) (by decide),
   (scheduler_total_steps_formula 32 16 2 (by decide)).2.2⟩

/-- C1 (evidence of the code bug): with successive evaluation F1 values
    3/5 then 2/5, the second evaluation also writes a checkpoint file even
    though its F1 (2/5) does not exceed the best F1 previously seen in the
    fit call (3/5), and `fit`'s best score stays 0 throughout: each `eval`
    call compares its F1 against the unchanged 0 because the rebinding of
    `best_score` inside `eval` (src/berts.py line 290) never propagates back
    to `fit` (line 79). The claim requires the second write flag to be
    `false`; the code produces `true`. -/
theorem fit_checkpoint_written_without_improvement :
    fitEvalSequence [3/5, 2/5] = [(0, true), (0, true)] ∧ (2/5 : ℚ) < 3/5 := by
  constructor
  · rw [fitEvalSequence_eq]
    simp only [List.map_cons, List.map_nil, evalBestScoreUpdate]
    norm_num
  · norm_num

/-- C2: the best-score tracker owned by one `fit` call is monotonically
    non-decreasing across the evaluations of that call, for any sequence of
    F1 values, and it changes only when an evaluation's F1 strictly exceeds
    it. (On this code the tracker in fact never changes at all: it stays at
    its initial value 0, which satisfies both properties.) -/
theorem fit_tracker_monotone (f1s : List ℚ) (i : ℕ)
    (h : i + 1 < (fitTrackerValues f1s).length) :
    (fitTrackerValues f1s).get ⟨i, by omega⟩
        ≤ (fitTrackerValues f1s).get ⟨i + 1, h⟩ ∧
    ((fitTrackerValues f1s).get ⟨i + 1, h⟩ ≠ (fitTrackerValues f1s).get ⟨i, by omega⟩ →
      (fitTrackerValues f1s).get ⟨i, by omega⟩
        < f1s.get ⟨i, by rw [fitTrackerValues_length] at h; omega⟩) := by
  have hz : ∀ (j : ℕ) (hj : j < (fitTrackerValues f1s).length),
      (fitTrackerValues f1s).get ⟨j, hj⟩ = 0 := by
    intro j hj
    have := fitTrackerValues_eq f1s
    simp [List.get_eq_getElem, this]
  constructor
  · rw [hz i (by omega), hz (i + 1) h]
  · intro hne
    exact absurd (by rw [hz i (by omega), hz (i + 1) h]) hne

/-- Witness for C2 at the concrete F1 sequence `[1/2]` and step 0. -/
theorem fit_tracker_monotone_witness :
    (fitTrackerValues [(1:ℚ)/2]).get ⟨0, by norm_num [fitTrackerValues_length]⟩
        ≤ (fitTrackerValues [(1:ℚ)/2]).get ⟨1, by norm_num [fitTrackerValues_length]⟩ :=
  (fit_tracker_monotone [(1:ℚ)/2] 0 (by norm_num [fitTrackerValues_length])).1

/-- C4: for every `fit` call with `epochs = N` and `eval_interval = k ≥ 1`
    (Python raises on `k = 0`), the epoch loop runs training exactly once for
    each epoch index 1..N in order with no early stopping, evaluation occurs
    exactly at the epoch indices divisible by `k` and immediately after that
    epoch's training; with `epochs = 2` and `eval_interval = 1` the trace is
    exactly two training passes each followed by an evaluation call. -/
theorem fit_epoch_loop_schedule (N k : ℕ) (_hk : 0 < k) :
    (fitTrace N k).filter isTrainEvent = (List.range' 1 N).map FitEvent.train ∧
    (fitTrace N k).filter isEvalEvent
      = ((List.range' 1 N).filter (fun i => decide (i % k = 0))).map FitEvent.evaluate ∧
    (∀ i, 1 ≤ i → i ≤ N → i % k = 0 →
      [FitEvent.train i, FitEvent.evaluate i] <:+: fitTrace N k) ∧
    fitTrace 2 1
      = [FitEvent.train 1, FitEvent.evaluate 1, FitEvent.train 2, FitEvent.evaluate 2] := by
  refine ⟨?_, ?_, ?_, by decide⟩
  · rw [fitTrace, filter_flatMap_comm]
    have hblock : ∀ i : ℕ,
        (([FitEvent.train i] ++ (if i % k = 0 then [FitEvent.evaluate i] else [])).filter
          isTrainEvent) = [FitEvent.train i] := by
      intro i
      by_cases h : i % k = 0 <;> simp [h, List.filter_cons, isTrainEvent]
    calc (List.range' 1 N).flatMap (fun i =>
            (([FitEvent.train i] ++ (if i % k = 0 then [FitEvent.evaluate i] else [])).filter
              isTrainEvent))
        = (List.range' 1 N).flatMap (fun i => [FitEvent.train i]) := by
          exact congrArg _ (funext hblock)
      _ = (List.range' 1 N).map FitEvent.train := flatMap_singleton_map _ _
  · rw [fitTrace, filter_flatMap_comm]
    have hblock : ∀ i : ℕ,
        (([FitEvent.train i] ++ (if i % k = 0 then [FitEvent.evaluate i] else [])).filter
          isEvalEvent) = (if i % k = 0 then [FitEvent.evaluate i] else []) := by
      intro i
      by_cases h : i % k = 0 <;> simp [h, List.filter_cons, isEvalEvent]
    calc (List.range' 1 N).flatMap (fun i =>
            (([FitEvent.train i] ++ (if i % k = 0 then [FitEvent.evaluate i] else [])).filter
              isEvalEvent))
        = (List.range' 1 N).flatMap (fun i => if i % k = 0 then [FitEvent.evaluate i] else []) := by
          exact congrArg _ (funext hblock)
      _ = ((List.range' 1 N).filter (fun i => decide (i % k = 0))).map FitEvent.evaluate :=
          flatMap_ite_singleton _ _ _
  · intro i h1 hN hmod
    have hmem : i ∈ List.range' 1 N := by
      rw [List.mem_range'_1]
      omega
    obtain ⟨s, t, hst⟩ := List.append_of_mem hmem
    rw [fitTrace, hst, List.flatMap_append, List.flatMap_cons]
    have hblk : [FitEvent.train i] ++ (if i % k = 0 then [FitEvent.evaluate i] else [])
        = [FitEvent.train i, FitEvent.evaluate i] := by
      simp [hmod]
    rw [hblk, ← List.append_assoc]
    exact List.infix_append _ _ _

/-- Witness for C4 at `epochs = 2`, `eval_interval = 1`. -/
theorem fit_epoch_loop_schedule_witness :
    (fitTrace 2 1).filter isTrainEvent = (List.range' 1 2).map FitEvent.train ∧
    [FitEvent.train 2, FitEvent.evaluate 2] <:+: fitTrace 2 1 :=
  ⟨(fit_epoch_loop_schedule 2 1 (by decide)).1,
   (fit_epoch_loop_schedule 2 1 (by decide)).2.2.1 2 (by decide) (by decide) (by decide)⟩

/-- C5: for every evaluation call on a nonempty batch sequence whose model
    outputs one logit row per example, the `predictions` and `true_labels` of
    the `EvalResult` are the concatenations of the per-batch logits and labels
    in batch order, the derived predictions are the row-wise `np.argmax`
    values (first, i.e. lowest, index on ties), and all three have length
    equal to the total example count across the batches — for batch shapes
    that do and do not evenly divide the dataset size. -/
theorem eval_aggregation_invariants (batches : List EvalBatch)
    (hne : batches ≠ [])
    (hlen : ∀ b ∈ batches, b.logits.length = b.labels.length) :
    ∃ r, evalRun batches = Except.ok r ∧
      r.predictions = (batches.map EvalBatch.logits).flatten ∧
      r.true_labels = (batches.map EvalBatch.labels).flatten ∧
      r.derived_preds = r.predictions.map npArgmax ∧
      r.predictions.length = (batches.map (fun b => b.labels.length)).sum ∧
      r.true_labels.length = (batches.map (fun b => b.labels.length)).sum ∧
      r.derived_preds.length = (batches.map (fun b => b.labels.length)).sum ∧
      (∀ v, v ∈ r.predictions → v ≠ [] →
        ∃ hm : npArgmax v < v.length,
          (∀ j (hj : j < v.length), v.get ⟨j, hj⟩ ≤ v.get ⟨npArgmax v, hm⟩) ∧
          (∀ j (hj : j < v.length),
            v.get ⟨j, hj⟩ = v.get ⟨npArgmax v, hm⟩ → npArgmax v ≤ j)) := by
  refine ⟨_, evalRun_ok batches hne, rfl, rfl, rfl, ?_, ?_, ?_, ?_⟩
  · rw [List.length_flatten, List.map_map]
    exact congrArg List.sum (List.map_congr_left (fun b hb => hlen b hb))
  · rw [List.length_flatten, List.map_map]
    exact congrArg List.sum (List.map_congr_left (fun b _ => rfl))
  · rw [List.length_map, List.length_flatten, List.map_map]
    exact congrArg List.sum (List.map_congr_left (fun b hb => hlen b hb))
  · intro v _ hv
    exact npArgmax_spec v hv

/-- Witness for C5: two batches of sizes 2 and 1 (a batch size that does not
    divide the example count evenly), with a tie inside one logit row. -/
theorem eval_aggregation_invariants_witness :
    ∃ r, evalRun [⟨1, [[1, 2], [3, 0]], [1, 0]⟩, ⟨2, [[2, 2]], [1]⟩]
        = Except.ok r ∧
      r.predictions
        = ([⟨1, [[1, 2], [3, 0]], [1, 0]⟩,
            (⟨2, [[2, 2]], [1]⟩ : EvalBatch)].map EvalBatch.logits).flatten ∧
      r.true_labels
        = ([⟨1, [[1, 2], [3, 0]], [1, 0]⟩,
            (⟨2, [[2, 2]], [1]⟩ : EvalBatch)].map EvalBatch.labels).flatten ∧
      r.derived_preds = r.predictions.map npArgmax ∧
      r.predictions.length
        = ([⟨1, [[1, 2], [3, 0]], [1, 0]⟩,
            (⟨2, [[2, 2]], [1]⟩ : EvalBatch)].map (fun b => b.labels.length)).sum ∧
      r.true_labels.length
        = ([⟨1, [[1, 2], [3, 0]], [1, 0]⟩,
            (⟨2, [[2, 2]], [1]⟩ : EvalBatch)].map (fun b => b.labels.length)).sum ∧
      r.derived_preds.length
        = ([⟨1, [[1, 2], [3, 0]], [1, 0]⟩,
            (⟨2, [[2, 2]], [1]⟩ : EvalBatch)].map (fun b => b.labels.length)).sum ∧
      (∀ v, v ∈ r.predictions → v ≠ [] →
        ∃ hm : npArgmax v < v.length,
          (∀ j (hj : j < v.length), v.get ⟨j, hj⟩ ≤ v.get ⟨npArgmax v, hm⟩) ∧
          (∀ j (hj : j < v.length),
            v.get ⟨j, hj⟩ = v.get ⟨npArgmax v, hm⟩ → npArgmax v ≤ j)) :=
  eval_aggregation_invariants
    [⟨1, [[1, 2], [3, 0]], [1, 0]⟩, ⟨2, [[2, 2]], [1]⟩]
    (by decide)
    (by intro b hb; fin_cases hb <;> rfl)

/-- C6: for every nonempty batch sequence, the average training loss of an
    epoch and the average validation loss of an evaluation equal the sum of
    the per-batch scalar losses divided by the number of batches — a simple
    mean of per-batch mean losses. -/
theorem loss_average_is_mean_of_batch_losses (batchLosses : List ℚ)
    (batches : List EvalBatch) (h1 : batchLosses ≠ []) (h2 : batches ≠ []) :
    avgTrainLoss batchLosses
      = Except.ok (batchLosses.sum / (batchLosses.length : ℚ)) ∧
    ∃ r, evalRun batches = Except.ok r ∧
      r.avg_val_loss = (batches.map EvalBatch.loss).sum / (batches.length : ℚ) := by
  constructor
  · have hlen : batchLosses.length ≠ 0 := by
      simpa [List.length_eq_zero] using h1
    simp [avgTrainLoss, hlen, totalTrainLoss_eq]
  · exact ⟨_, evalRun_ok batches h2, rfl⟩

/-- Witness for C6 at concrete batch losses `[1, 2]` and a one-batch
    evaluation with loss 3. -/
theorem loss_average_is_mean_of_batch_losses_witness :
    avgTrainLoss [1, 2]
      = Except.ok (([1, 2] : List ℚ).sum / (([1, 2] : List ℚ).length : ℚ)) ∧
    ∃ r, evalRun [⟨3, [[1]], [0]⟩] = Except.ok r ∧
      r.avg_val_loss
        = ([(⟨3, [[1]], [0]⟩ : EvalBatch)].map EvalBatch.loss).sum
            / (([(⟨3, [[1]], [0]⟩ : EvalBatch)].length : ℕ) : ℚ) :=
  loss_average_is_mean_of_batch_losses [1, 2] [⟨3, [[1]], [0]⟩]
    (by decide) (by decide)


/-- C7 (counterexample): calling `pred` on an empty text sequence does not
    return an empty prediction array and does not create the output CSV — the
    batch source yields zero batches and `np.concatenate` on the empty list
    (src/berts.py line 376) raises `ValueError` before the CSV write at lines
    383-388, so the call produces no `.ok` result at all. -/
theorem pred_empty_input_counterexample :
    predRun (fun _ => [(0 : ℚ)]) [] 16
      = Except.error "ValueError: need at least one array to concatenate" ∧
    ¬ ∃ out, predRun (fun _ => [(0 : ℚ)]) [] 16 = Except.ok out ∧
        out.predictions = [] := by
  have hb : makeSmartBatches 16 ([] : List String) = [] := by
    rw [makeSmartBatches]
  have hrun : predRun (fun _ => [(0 : ℚ)]) [] 16
      = Except.error "ValueError: need at least one array to concatenate" := by
    simp [predRun, hb, npConcatenate]
  refine ⟨hrun, ?_⟩
  rintro ⟨out, hout, -⟩
  rw [hrun] at hout
  exact Except.noConfusion hout

/-- C7 (amended): for every model and batch size, calling `pred` on an empty
    text sequence raises the `ValueError` of `np.concatenate` on an empty
    array list before any CSV output is produced, so no prediction array is
    returned and the output CSV is not created. -/
theorem pred_empty_input_raises (modelLogits : String → List ℚ)
    (batch_size : ℕ) :
    predRun modelLogits [] batch_size
      = Except.error "ValueError: need at least one array to concatenate" := by
  have hb : makeSmartBatches batch_size ([] : List String) = [] := by
    rw [makeSmartBatches]
  simp [predRun, hb, npConcatenate]

/-- C8: the dataset loader `load_bert_data` raises exactly when the label
    type is not recognized as one of the two values `predicate` and
    `framenet`, and for a recognized value it returns the texts, the
    integer-encoded labels of the selected answer column, and the number of
    distinct classes of that column. -/
theorem load_bert_data_error_iff (rows : List DataRow) (label_type : String) :
    ((load_bert_data rows label_type).isOk = false ↔
      pyLower label_type ≠ "predicate" ∧ pyLower label_type ≠ "framenet") ∧
    (pyLower label_type = "predicate" →
      load_bert_data rows label_type
        = Except.ok (rows.map DataRow.text,
            labelEncode (rows.map DataRow.predicate_answer),
            (rows.map DataRow.predicate_answer).dedup.length)) ∧
    (pyLower label_type = "framenet" →
      load_bert_data rows label_type
        = Except.ok (rows.map DataRow.text,
            labelEncode (rows.map DataRow.framenet_answer),
            (rows.map DataRow.framenet_answer).dedup.length)) ∧
    (∀ X y n, load_bert_data rows label_type = Except.ok (X, y, n) →
      X.length = rows.length ∧ y.length = rows.length) := by
  by_cases hp : pyLower label_type = "predicate"
  · refine ⟨by simp [load_bert_data, hp, Except.isOk, Except.toBool],
      fun _ => by simp [load_bert_data, hp],
      fun hf => absurd (hp.symm.trans hf) (by decide), ?_⟩
    intro X y n hok
    simp only [load_bert_data, hp, if_true] at hok
    have h2 := Except.ok.inj hok
    injection h2 with hX hyn
    injection hyn with hy hn
    subst hX
    subst hy
    exact ⟨by simp, by simp [labelEncode]⟩
  · by_cases hf : pyLower label_type = "framenet"
    · refine ⟨by simp [load_bert_data, hp, hf, Except.isOk, Except.toBool],
        fun hp2 => absurd hp2 hp,
        fun _ => by simp [load_bert_data, hp, hf], ?_⟩
      intro X y n hok
      simp only [load_bert_data, hp, hf, if_true, if_false] at hok
      have h2 := Except.ok.inj hok
      injection h2 with hX hyn
      injection hyn with hy hn
      subst hX
      subst hy
      exact ⟨by simp, by simp [labelEncode]⟩
    · refine ⟨by simp [load_bert_data, hp, hf, Except.isOk, Except.toBool],
        fun hp2 => absurd hp2 hp, fun hf2 => absurd hf2 hf, ?_⟩
      intro X y n hok
      simp [load_bert_data, hp, hf] at hok

/-- Witness for C8 on a concrete two-row dataset: the recognized value
    `predicate` succeeds with the encoded labels and class count, and the
    unrecognized value `foo` raises. -/
theorem load_bert_data_error_iff_witness :
    load_bert_data [⟨"a", "yes", "F1"⟩, ⟨"b", "no", "F2"⟩] "predicate"
      = Except.ok
          ([⟨"a", "yes", "F1"⟩, (⟨"b", "no", "F2"⟩ : DataRow)].map DataRow.text,
            labelEncode
              ([⟨"a", "yes", "F1"⟩, (⟨"b", "no", "F2"⟩ : DataRow)].map DataRow.predicate_answer),
            ([⟨"a", "yes", "F1"⟩,
              (⟨"b", "no", "F2"⟩ : DataRow)].map DataRow.predicate_answer).dedup.length) ∧
    (load_bert_data [⟨"a", "yes", "F1"⟩, ⟨"b", "no", "F2"⟩] "foo").isOk = false :=
  ⟨(load_bert_data_error_iff [⟨"a", "yes", "F1"⟩, ⟨"b", "no", "F2"⟩] "predicate").2.1
      (by decide),
   (load_bert_data_error_iff [⟨"a", "yes", "F1"⟩, ⟨"b", "no", "F2"⟩] "foo").1.mpr
      (by decide)⟩

/-- C9: if no epoch index in `1..epochs` is divisible by `eval_interval`
    (with `eval_interval ≥ 1`; for example when `epochs < eval_interval`),
    then no evaluation ever assigns `self.true_labels` and `self.preds`, so
    the final report generation of `fit` raises `AttributeError` and the
    report CSV is not written (the `.ok` branch, which is the only one that
    writes the CSV, is not reached). -/
theorem fit_without_eval_raises_attribute_error (epochs eval_interval : ℕ)
    (evalOut : ℕ → List ℕ × List ℕ) (_hk : 0 < eval_interval)
    (h : ∀ i ∈ List.range' 1 epochs, i % eval_interval ≠ 0) :
    fitRunReport epochs eval_interval evalOut = Except.error "AttributeError" ∧
    ∀ b, fitRunReport epochs eval_interval evalOut ≠ Except.ok b := by
  have hattrs : fitLoopAttrs epochs eval_interval evalOut = ⟨none, none⟩ := by
    rw [fitLoopAttrs]
    exact foldl_congr_id _ _
      (fun s a ha => if_neg (h a ha)) (⟨none, none⟩ : ClfAttrs)
  constructor
  · rw [fitRunReport, hattrs]
    rfl
  · intro b hb
    rw [fitRunReport, hattrs] at hb
    exact Except.noConfusion hb

/-- Witness for C9 at `epochs = 2`, `eval_interval = 5`. -/
theorem fit_without_eval_raises_attribute_error_witness :
    fitRunReport 2 5 (fun _ => ([], [])) = Except.error "AttributeError" :=
  (fit_without_eval_raises_attribute_error 2 5 (fun _ => ([], []))
    (by decide) (by decide)).1

/-- C10: the label-type argument of both dataset loaders is matched
    case-insensitively: every string whose lowercase form is `predicate`
    (resp. `framenet`) makes `load_bert_data` and `load_csv_dataset` succeed
    and behave identically to the lowercase value. -/
theorem label_type_case_insensitive (rows : List DataRow) (label_type : String) :
    (pyLower label_type = "predicate" →
      load_bert_data rows label_type = load_bert_data rows "predicate" ∧
      load_csv_dataset rows label_type = load_csv_dataset rows "predicate" ∧
      (load_bert_data rows label_type).isOk = true ∧
      (load_csv_dataset rows label_type).isOk = true) ∧
    (pyLower label_type = "framenet" →
      load_bert_data rows label_type = load_bert_data rows "framenet" ∧
      load_csv_dataset rows label_type = load_csv_dataset rows "framenet" ∧
      (load_bert_data rows label_type).isOk = true ∧
      (load_csv_dataset rows label_type).isOk = true) := by
  constructor
  · intro hp
    refine ⟨?_, ?_, ?_, ?_⟩ <;>
      simp [load_bert_data, load_csv_dataset, hp, Except.isOk, Except.toBool,
        show pyLower "predicate" = "predicate" from by decide]
  · intro hf
    refine ⟨?_, ?_, ?_, ?_⟩ <;>
      simp [load_bert_data, load_csv_dataset, hf, Except.isOk, Except.toBool,
        show pyLower "framenet" = "framenet" from by decide,
        show ¬ ("framenet" : String) = "predicate" from by decide]

/-- Witness for C10 at the concrete mixed-case label types `PREDICATE` and
    `FrameNet` on a one-row dataset. -/
theorem label_type_case_insensitive_witness :
    load_bert_data [⟨"t", "p", "f"⟩] "PREDICATE"
      = load_bert_data [⟨"t", "p", "f"⟩] "predicate" ∧
    load_csv_dataset [⟨"t", "p", "f"⟩] "FrameNet"
      = load_csv_dataset [⟨"t", "p", "f"⟩] "framenet" :=
  ⟨((label_type_case_insensitive [⟨"t", "p", "f"⟩] "PREDICATE").1 (by decide)).1,
   ((label_type_case_insensitive [⟨"t", "p", "f"⟩] "FrameNet").2 (by decide)).2.1⟩
